import Mathlib

/-!
Verification of the ramses scene-graph distribution and resource-cache
subsystems against their natural-language specification.

The development shallowly embeds the relevant C++ code:

* `ResourceValue` and its compression/hash operations model the resource
  value class (`ResourceBase`); only its tests are present in the
  repository snapshot, so the value itself is modelled from the spec.
* `sendSceneUpdate`, `handleSceneUpdate`, `handleNewScenesAvailable` and
  `handleInitializeScene` embed `SceneGraphComponent` from
  `src/framework/internal/Components/SceneGraphComponent.cpp`.
* `resolveResources` embeds `ResourceComponent::resolveResources` /
  `ResourceComponent::loadResource` from
  `src/framework/internal/Components/ResourceComponent.cpp`.
* `GetAllResourcesFromScene` embeds
  `ResourceUtils::GetAllResourcesFromScene` from
  `src/framework/internal/SceneGraph/SceneUtils/ResourceUtils.h`.

Machine integers are modelled as `Nat` (no arithmetic in the embedded code
overflows), byte buffers as `List Nat`, and identifiers (participant GUIDs,
scene ids, resource hashes) as `Nat`.
-/

/-! ## Resource value (compression levels, buffers, content hash)

Modelled from the spec: the resource value implementation
(`ResourceBase.cpp`) is not part of the repository snapshot, only its test
suite is, so the definitions below follow the spec's data model, section
"Resource Value", and the behaviour its tests document. -/

/-- Compression levels of a resource value, totally ordered as
`None < Realtime < Offline` (spec: higher = smaller output, more CPU). -/
inductive CompressionLevel where
  | None
  | Realtime
  | Offline
deriving DecidableEq, Repr

/-- Numeric rank realizing the total order `None < Realtime < Offline`. -/
def CompressionLevel.rank : CompressionLevel → Nat
  | .None => 0
  | .Realtime => 1
  | .Offline => 2

/-- Modelled from the spec: the LZ4 compression backend is external to the
repository. The spec requires two compressors (`Realtime`, `Offline`) that
may produce different bytes for the same input while sharing a single
decoder that inverts either one ("`decompress()` ... is the inverse of
whichever compression produced the compressed buffer, independent of which
level that was"). This stands in for them: each compressor tags its output
with a discriminant byte so that the shared decoder can invert it. -/
def compressFn : CompressionLevel → List Nat → List Nat
  | .None, d => d
  | .Realtime, d => 0 :: d
  | .Offline, d => 1 :: d.reverse

/-- Modelled from the spec: shared decoder inverting `compressFn` at any
level (see `compressFn`). -/
def decompressFn : List Nat → List Nat
  | [] => []
  | t :: rest => if t = 0 then rest else rest.reverse

/-- Content hash of a resource value. Modelled from the spec: "a
128-bit-class deterministic digest over the resource's decompressed bytes
plus its type tag and any semantic name [serialized metadata]"; the digest
is idealized as the injective record of the hashed components, and
`ContentHash.invalid` models `ResourceContentHash::Invalid`, "the only hash
value never assigned to real content". -/
inductive ContentHash where
  | invalid
  | digest (typeID : Nat) (metadata : List Nat) (payload : List Nat)
deriving DecidableEq, Repr

/-- Minimum-benefit threshold: payloads whose decompressed size is below
1001 bytes are never compressed (spec: "values under ~1000 bytes of
decompressed payload are defined to never benefit from compression"; the
tests pin the boundary: sizes 1..1000 stay uncompressed, 1001 compresses). -/
def compressionThreshold : Nat := 1001

/-- Resource value state. Modelled from the spec, section "Resource Value":
type tag, serialized metadata, optional display name, optional decompressed
buffer, optional compressed buffer together with the level that produced
it, declared decompressed size, and an optional explicitly-set hash. -/
structure ResourceValue where
  typeID : Nat
  metadata : List Nat
  name : Nat
  decompressedData : Option (List Nat)
  decompressedSize : Nat
  compressedData : Option (List Nat)
  compressedLevel : CompressionLevel
  explicitHash : Option ContentHash
deriving DecidableEq, Repr

/-- A freshly constructed resource value: no buffers, no hash. -/
def mkResource (typeID : Nat) (metadata : List Nat) (name : Nat) : ResourceValue :=
  { typeID := typeID
    metadata := metadata
    name := name
    decompressedData := none
    decompressedSize := 0
    compressedData := none
    compressedLevel := .None
    explicitHash := none }

/-- Modelled from the spec: `setResourceData` installs decompressed bytes
and "setting new decompressed data invalidates any previously computed
compressed buffer"; an explicit hash may be supplied, otherwise the hash is
computed on demand. -/
def ResourceValue.setResourceData (r : ResourceValue) (d : List Nat)
    (h : Option ContentHash) : ResourceValue :=
  { r with
    decompressedData := some d
    decompressedSize := d.length
    compressedData := none
    compressedLevel := .None
    explicitHash := h }

/-- Modelled from the spec: a value "created with ... only compressed bytes
plus declared decompressed size and hash (received from network or loaded
from file)". -/
def ResourceValue.setCompressedResourceData (r : ResourceValue) (c : List Nat)
    (lvl : CompressionLevel) (size : Nat) (h : ContentHash) : ResourceValue :=
  { r with
    decompressedData := none
    decompressedSize := size
    compressedData := some c
    compressedLevel := lvl
    explicitHash := some h }

/-- Modelled from the spec: `compress(level)` "overwrites any compressed
buffer previously produced by a lower level, while compressing at a level
lower than or equal to the level already cached is a no-op"; payloads under
the minimum-benefit threshold are never compressed, and level `None`
requests no compression. -/
def ResourceValue.compress (r : ResourceValue) (lvl : CompressionLevel) : ResourceValue :=
  if lvl = .None then r
  else
    match r.decompressedData with
    | none => r
    | some d =>
      if d.length < compressionThreshold then r
      else if r.compressedData.isSome = true ∧ lvl.rank ≤ r.compressedLevel.rank then r
      else { r with compressedData := some (compressFn lvl d), compressedLevel := lvl }

/-- Modelled from the spec: `decompress()` "requires a compressed buffer
and a known decompressed size to be present" and reconstructs the
decompressed bytes; a value that already holds decompressed bytes is left
unchanged. -/
def ResourceValue.decompress (r : ResourceValue) : ResourceValue :=
  match r.decompressedData, r.compressedData with
  | none, some c => { r with decompressedData := some (decompressFn c) }
  | _, _ => r

/-- Whether a compressed buffer is currently available
(`isCompressedAvailable`). -/
def ResourceValue.isCompressedAvailable (r : ResourceValue) : Bool :=
  r.compressedData.isSome

/-- Whether a decompressed buffer is currently available
(`isDeCompressedAvailable`). -/
def ResourceValue.isDeCompressedAvailable (r : ResourceValue) : Bool :=
  r.decompressedData.isSome

/-- Modelled from the spec: `getHash` returns the explicitly installed hash
if one was set, else the digest computed over decompressed bytes, type tag
and serialized metadata (never over the display name), else
`ContentHash.invalid` for a value without content. -/
def ResourceValue.getHash (r : ResourceValue) : ContentHash :=
  match r.explicitHash with
  | some h => h
  | none =>
    match r.decompressedData with
    | some d => .digest r.typeID r.metadata d
    | none => .invalid

/-! ## Association-list map primitives

`SceneGraphComponent` keeps `m_remoteScenes` in a `std::map`; the model
uses an association list with map semantics (lookup of the first binding,
erase removes the binding of a key, insert overwrites). -/

/-- Lookup of a key in an association list (`map::find`). -/
def alookup {β : Type} (k : Nat) : List (Nat × β) → Option β
  | [] => none
  | (k1, v) :: rest => if k1 = k then some v else alookup k rest

/-- Removal of a key from an association list (`map::erase`). -/
def aerase {β : Type} (k : Nat) (l : List (Nat × β)) : List (Nat × β) :=
  l.filter (fun p => p.1 ≠ k)

/-- Insert-or-overwrite of a binding (`map::operator[]` plus assignment). -/
def ainsert {β : Type} (k : Nat) (v : β) (l : List (Nat × β)) : List (Nat × β) :=
  (k, v) :: aerase k l

/-! ## Update-stream decoder

Modelled from the spec: `SceneUpdateStreamDeserializer` is not part of the
repository snapshot (only its caller `SceneGraphComponent::handleSceneUpdate`
is), so the decoder is modelled from spec section 4.3 "Update Stream Codec":
chunks are framed with a type discriminant and a declared length, a partial
record is buffered across calls (`Accumulating`), a call returns one of
`Empty` / `HasData` / `Failed`, failure is raised when "declared length
exceeds a sane bound or a discriminant is unrecognized", and `Failed` is
sticky for the stream. -/

/-- Sane upper bound on a declared record length; a declared length above
it is a framing inconsistency (modelled from the spec, the concrete bound
is internal to the codec). -/
def saneLengthBound : Nat := 100000

/-- Fuel-bounded record parser; the fuel only bounds the recursion depth
(each step consumes at least two bytes, so `l.length` fuel always
suffices) and keeps the recursion structural. Record framing: discriminant
byte, length byte, payload. Valid discriminants are 1 (scene mutations),
2 (resource blob), 3 (flush marker). -/
def parseRecordsAux : Nat → List Nat → List (Nat × List Nat) × List Nat × Bool
  | _, [] => ([], [], false)
  | _, [t] => ([], [t], false)
  | 0, l => ([], l, false)
  | fuel + 1, t :: len :: rest =>
    if t = 0 ∨ 3 < t ∨ saneLengthBound < len then ([], [], true)
    else if rest.length < len then ([], t :: len :: rest, false)
    else
      let tail := parseRecordsAux fuel (rest.drop len)
      ((t, rest.take len) :: tail.1, tail.2)

/-- Parse as many complete records as possible from a byte buffer.
Returns the complete records as (discriminant, payload) pairs, the
leftover bytes of a partial record, and whether a framing inconsistency
was detected. -/
def parseRecords (l : List Nat) : List (Nat × List Nat) × List Nat × Bool :=
  parseRecordsAux l.length l

/-- Per-call result of the decoder, spec section 4.3. -/
inductive DeserializeResult where
  | empty
  | failed
  | hasData (records : List (Nat × List Nat))
deriving DecidableEq, Repr

/-- Decoder state: sticky failure flag plus buffered partial-record bytes. -/
structure Deserializer where
  failed : Bool
  pending : List Nat
deriving DecidableEq, Repr

/-- A freshly created decoder (`std::make_unique<SceneUpdateStreamDeserializer>`):
not failed, no buffered bytes. -/
def freshDeserializer : Deserializer := { failed := false, pending := [] }

/-- Modelled from the spec: one `processData` call of the decoder. A failed
decoder stays failed regardless of input ("`Failed` is sticky for that
stream: once corrupted, the stream must not silently resynchronize"). -/
def processData (d : Deserializer) (bytes : List Nat) : Deserializer × DeserializeResult :=
  if d.failed then (d, .failed)
  else
    let parsed := parseRecords (d.pending ++ bytes)
    if parsed.2.2 then ({ failed := true, pending := [] }, .failed)
    else if parsed.1.isEmpty then ({ failed := false, pending := parsed.2.1 }, .empty)
    else ({ failed := false, pending := parsed.2.1 }, .hasData parsed.1)

/-! ## Distribution router (`SceneGraphComponent`)

Embedded from `src/framework/internal/Components/SceneGraphComponent.cpp`.
Scene ids, participant GUIDs and feature levels are `Nat`; the renderer
handler is modelled by a presence flag plus the list of events that would
be delivered to it. -/

/-- Scene information as carried in publish notifications (`SceneInfo`,
reduced to the fields the embedded handlers inspect and forward). -/
structure SceneInfoM where
  sceneID : Nat
  name : Nat
deriving DecidableEq, Repr

/-- Entry of the remote-scene table `m_remoteScenes` (`ReceivedScene`):
published info, providing participant, and the per-(scene, provider)
decoder, absent until the scene is initialized. -/
structure ReceivedScene where
  info : SceneInfoM
  provider : Nat
  deserializer : Option Deserializer
deriving DecidableEq, Repr

/-- State of the router relevant to the embedded handlers. -/
structure RouterState where
  hasHandler : Bool
  featureLevel : Nat
  connected : Bool
  remoteScenes : List (Nat × ReceivedScene)
deriving DecidableEq, Repr

/-- Calls the router makes on the local renderer handler
(`ISceneRendererHandler`). -/
inductive REvent where
  | newSceneAvailable (info : SceneInfoM) (provider : Nat)
  | sceneBecameUnavailable (sceneId : Nat) (provider : Nat)
  | initializeScene (info : SceneInfoM) (provider : Nat)
  | sceneUpdate (sceneId : Nat) (records : List (Nat × List Nat)) (provider : Nat)
deriving DecidableEq, Repr

/-- `SceneGraphComponent::handleSceneUpdate` (SceneGraphComponent.cpp,
lines 520-571): guards for missing handler, unknown scene, wrong provider,
empty data and uninitialized decoder; then feeds the bytes to the decoder,
stores the advanced decoder state back, and on `HasData` hands the decoded
update to the renderer handler. On `Failed` it only logs (the TODO on line
559 notes that unsubscribing or disconnecting is not implemented). -/
def handleSceneUpdate (s : RouterState) (sceneId : Nat) (actionData : List Nat)
    (providerID : Nat) : RouterState × List REvent :=
  if s.hasHandler = false then (s, [])
  else
    match alookup sceneId s.remoteScenes with
    | none => (s, [])
    | some rs =>
      if rs.provider ≠ providerID then (s, [])
      else if actionData = [] then (s, [])
      else
        match rs.deserializer with
        | none => (s, [])
        | some d =>
          let stepped := processData d actionData
          let s1 : RouterState :=
            { s with remoteScenes :=
                ainsert sceneId { rs with deserializer := some stepped.1 } s.remoteScenes }
          match stepped.2 with
          | .empty => (s1, [])
          | .failed => (s1, [])
          | .hasData recs => (s1, [.sceneUpdate sceneId recs providerID])

/-- Body of the per-scene loop of
`SceneGraphComponent::handleNewScenesAvailable` (SceneGraphComponent.cpp,
lines 577-612): a scene already tracked from the same provider is first
torn down (consumer notified, entry erased); then, if the scene id is
untracked, the publication is accepted when the advertised feature level
matches the local one (entry inserted with no decoder, consumer notified)
and ignored otherwise; a scene tracked from a different provider is
ignored. -/
def handleNewSceneAvailableOne (s : RouterState) (newScene : SceneInfoM)
    (providerID featureLevel : Nat) : RouterState × List REvent :=
  let torn :=
    match alookup newScene.sceneID s.remoteScenes with
    | some rs =>
      if rs.provider = providerID then
        ({ s with remoteScenes := aerase newScene.sceneID s.remoteScenes },
         if s.hasHandler then [REvent.sceneBecameUnavailable newScene.sceneID providerID] else [])
      else (s, ([] : List REvent))
    | none => (s, ([] : List REvent))
  match alookup newScene.sceneID torn.1.remoteScenes with
  | none =>
    if featureLevel = torn.1.featureLevel then
      let accepted : RouterState :=
        { torn.1 with
          remoteScenes := ainsert newScene.sceneID ⟨newScene, providerID, none⟩ torn.1.remoteScenes }
      (accepted,
       torn.2 ++ (if torn.1.hasHandler then [REvent.newSceneAvailable newScene providerID] else []))
    else (torn.1, torn.2)
  | some _ => (torn.1, torn.2)

/-- `SceneGraphComponent::handleNewScenesAvailable` (SceneGraphComponent.cpp,
lines 573-613): processes each publication of the notification in order. -/
def handleNewScenesAvailable (s : RouterState) (newScenes : List SceneInfoM)
    (providerID featureLevel : Nat) : RouterState × List REvent :=
  newScenes.foldl
    (fun acc sc =>
      let step := handleNewSceneAvailableOne acc.1 sc providerID featureLevel
      (step.1, acc.2 ++ step.2))
    (s, [])

/-- `SceneGraphComponent::handleInitializeScene` (SceneGraphComponent.cpp,
lines 490-518): guards for missing handler, unknown scene and wrong
provider; then installs a fresh decoder for the (scene, provider) pair and
notifies the renderer handler. -/
def handleInitializeScene (s : RouterState) (sceneId providerID : Nat) :
    RouterState × List REvent :=
  if s.hasHandler = false then (s, [])
  else
    match alookup sceneId s.remoteScenes with
    | none => (s, [])
    | some rs =>
      if rs.provider ≠ providerID then (s, [])
      else
        ({ s with remoteScenes :=
             ainsert sceneId { rs with deserializer := some freshDeserializer } s.remoteScenes },
         [.initializeScene rs.info providerID])

/-! ## Outgoing update path (`SceneGraphComponent::sendSceneUpdate`) -/

/-- An in-memory scene update as produced by a flush (`SceneUpdate`):
scene mutation actions, referenced resources, flush information. Only the
resources are inspected by `sendSceneUpdate`. -/
structure SceneUpdateM where
  actions : Nat
  resources : List ResourceValue
  flushInfos : Nat
deriving DecidableEq, Repr

/-- The compression pass of `sendSceneUpdate`: compress every resource of
the update at `Realtime` level (SceneGraphComponent.cpp, lines 139-142). -/
def compressPass (u : SceneUpdateM) : SceneUpdateM :=
  { u with resources := u.resources.map (fun r => r.compress .Realtime) }

/-- Observable outcome of one `sendSceneUpdate` call: updates serialized to
the network per destination, how many times the compression pass over the
update's resources ran, and the update handed to the local renderer handler
if any. -/
structure SendOutcome where
  netSends : List (Nat × SceneUpdateM)
  compressPasses : Nat
  localDelivery : Option SceneUpdateM
deriving DecidableEq, Repr

/-- Destination loop of `SceneGraphComponent::sendSceneUpdate`
(SceneGraphComponent.cpp, lines 127-147): remembers whether the local
participant is among the destinations, compresses the update's resources
once before the first network send, and serializes the (shared) update to
every non-local destination. -/
def sendSceneUpdateLoop (myID : Nat) (toVec : List Nat) (sendToSelf alreadyCompressed : Bool)
    (upd : SceneUpdateM) (passes : Nat) (sends : List (Nat × SceneUpdateM)) :
    Bool × SceneUpdateM × Nat × List (Nat × SceneUpdateM) :=
  match toVec with
  | [] => (sendToSelf, upd, passes, sends)
  | dest :: rest =>
    if dest = myID then
      sendSceneUpdateLoop myID rest true alreadyCompressed upd passes sends
    else if alreadyCompressed then
      sendSceneUpdateLoop myID rest sendToSelf true upd passes (sends ++ [(dest, upd)])
    else
      sendSceneUpdateLoop myID rest sendToSelf true (compressPass upd) (passes + 1)
        (sends ++ [(dest, compressPass upd)])

/-- `SceneGraphComponent::sendSceneUpdate` (SceneGraphComponent.cpp, lines
124-152): run the destination loop, then, if the local participant was a
destination and a renderer handler is attached, move the in-memory update
to the local renderer handler. -/
def sendSceneUpdate (myID : Nat) (hasHandler : Bool) (toVec : List Nat)
    (upd : SceneUpdateM) : SendOutcome :=
  let looped := sendSceneUpdateLoop myID toVec false false upd 0 []
  { netSends := looped.2.2.2
    compressPasses := looped.2.2.1
    localDelivery := if looped.1 && hasHandler then some looped.2.1 else none }

/-! ## Resource resolution (`ResourceComponent`)

Embedded from `src/framework/internal/Components/ResourceComponent.cpp`.
Managed resources are modelled as opaque `Nat` ids; the in-memory resource
storage is an association list hash -> resource. The resource-file registry
and `ResourcePersistation::RetrieveResourceFromStream` are external
collaborators; they are modelled by an association list hash -> retrieval
outcome, where `none` stands for a stream exception or a null result. -/

/-- Environment of `resolveResources`: the in-memory resource storage
(`m_resourceStorage`, hash to live resource) and the file-backed entries
(`m_resourceFiles` plus the persistation layer, hash to outcome of reading
the entry from disk). -/
structure ResolveEnv where
  storage : List (Nat × Nat)
  fileEntries : List (Nat × Option Nat)
deriving DecidableEq, Repr

/-- `ResourceComponent::loadResource` (ResourceComponent.cpp, lines
102-139): returns nothing when the hash has no registered file entry
(`getEntry` fails) and nothing when retrieving from the stream throws or
yields no resource; otherwise yields the loaded resource. -/
def loadResource (fileEntries : List (Nat × Option Nat)) (h : Nat) : Option Nat :=
  match alookup h fileEntries with
  | none => none
  | some outcome => outcome

/-- Loop of `ResourceComponent::resolveResources` (ResourceComponent.cpp,
lines 151-165): per hash, try the live storage (`getResource`), else a
file-backed load (`loadResource`, which on success manages the loaded
resource into the storage); successes are appended to the result vector,
failures to the failed list. Returns (storage, result, failed). -/
def resolveResourcesLoop (fileEntries : List (Nat × Option Nat)) :
    List Nat → List (Nat × Nat) → List Nat → List Nat →
    List (Nat × Nat) × List Nat × List Nat
  | [], storage, res, failed => (storage, res, failed)
  | h :: rest, storage, res, failed =>
    match alookup h storage with
    | some r => resolveResourcesLoop fileEntries rest storage (res ++ [r]) failed
    | none =>
      match loadResource fileEntries h with
      | some r => resolveResourcesLoop fileEntries rest (ainsert h r storage) (res ++ [r]) failed
      | none => resolveResourcesLoop fileEntries rest storage res (failed ++ [h])

/-- `ResourceComponent::resolveResources` (ResourceComponent.cpp, lines
146-171): returns the resolved resources in input order together with the
separately collected (and logged) failed-hash list. -/
def resolveResources (env : ResolveEnv) (hashes : List Nat) : List Nat × List Nat :=
  let looped := resolveResourcesLoop env.fileEntries hashes env.storage [] []
  (looped.2.1, looped.2.2)

/-- The per-hash resolution the spec describes: "for each hash, return the
live resource if cached, else attempt file-backed load". -/
def resolveOne (env : ResolveEnv) (h : Nat) : Option Nat :=
  match alookup h env.storage with
  | some r => some r
  | none => loadResource env.fileEntries h

/-! ## Scene resource collection (`ResourceUtils::GetAllResourcesFromScene`)

Embedded from `src/framework/internal/SceneGraph/SceneUtils/ResourceUtils.h`,
lines 25-74. The template's scene accessors are modelled as data: a
renderable carries, per data-slot type (geometry, uniforms), either
nothing (invalid or unallocated data instance) or the data layout of that
instance with the per-field values the accessors would return. Resource
content hashes are `Nat`, with `0` playing `ResourceContentHash::Invalid`
(`hash.isValid()` is `h ≠ 0`). -/

/-- Visibility mode of a renderable (`EVisibilityMode`). -/
inductive EVisibilityMode where
  | Off
  | Invisible
  | Visible
deriving DecidableEq, Repr

/-- A texture sampler as reached through a sampler field: allocation state
and its texture resource hash. -/
structure SamplerM where
  allocated : Bool
  textureResource : Nat
deriving DecidableEq, Repr

/-- One field of a data layout, with the data the collection loop reads for
it: a buffer-typed field carries the hash of its data resource; a
sampler-typed field carries its sampler when the sampler handle is valid
and allocated (`none` models an invalid handle, `some` with
`allocated = false` an unallocated sampler); any other field type is
skipped. -/
inductive FieldEntry where
  | bufferField (hash : Nat)
  | samplerField (sampler : Option SamplerM)
  | otherField
deriving DecidableEq, Repr

/-- Data layout of an allocated data instance: effect hash plus fields. -/
structure DataLayoutM where
  effectHash : Nat
  fields : List FieldEntry
deriving DecidableEq, Repr

/-- A renderable: visibility mode and, per data-slot type, the layout of
its data instance when the instance handle is valid and allocated. -/
structure RenderableM where
  visibilityMode : EVisibilityMode
  geometryInstance : Option DataLayoutM
  uniformsInstance : Option DataLayoutM
deriving DecidableEq, Repr

/-- A scene, reduced to what `GetAllResourcesFromScene` traverses:
renderables and the attached-texture hashes of the data slots. -/
structure SceneM where
  renderables : List RenderableM
  dataSlots : List Nat
deriving DecidableEq, Repr

/-- The `pushBackIfValid` lambda of `GetAllResourcesFromScene`: append the
hash only if it is valid. -/
def pushBackIfValid (vec : List Nat) (h : Nat) : List Nat :=
  if h ≠ 0 then vec ++ [h] else vec

/-- Field loop body of `GetAllResourcesFromScene` (ResourceUtils.h, lines
50-65). -/
def collectField (vec : List Nat) : FieldEntry → List Nat
  | .bufferField h => pushBackIfValid vec h
  | .samplerField s =>
    match s with
    | some sm => if sm.allocated then pushBackIfValid vec sm.textureResource else vec
    | none => vec
  | .otherField => vec

/-- Per-data-instance collection (ResourceUtils.h, lines 43-65): skip an
invalid or unallocated instance, else push the layout's effect hash and
every field's resources. -/
def collectInstance (vec : List Nat) : Option DataLayoutM → List Nat
  | none => vec
  | some layout => layout.fields.foldl collectField (pushBackIfValid vec layout.effectHash)

/-- Per-renderable collection (ResourceUtils.h, lines 35-66): a renderable
whose visibility mode is `Off` is skipped entirely; otherwise its geometry
and uniforms instances are visited in that order. -/
def collectRenderable (vec : List Nat) (r : RenderableM) : List Nat :=
  if r.visibilityMode = .Off then vec
  else collectInstance (collectInstance vec r.geometryInstance) r.uniformsInstance

/-- Tail of adjacent-duplicate removal: drop elements equal to the last
kept one, keep the first element of every new run. -/
def uniqueAdjAux : Nat → List Nat → List Nat
  | _, [] => []
  | last, b :: rest => if b = last then uniqueAdjAux last rest else b :: uniqueAdjAux b rest

/-- Adjacent-duplicate removal, the effect of
`erase(std::unique(begin, end), end)`. -/
def uniqueAdj : List Nat → List Nat
  | [] => []
  | a :: rest => a :: uniqueAdjAux a rest

/-- `ResourceUtils::GetAllResourcesFromScene` (ResourceUtils.h, lines
25-74): collect the valid hashes referenced by non-`Off` renderables and by
data slots, sort them, and drop duplicates. `std::sort` is modelled by
insertion sort (same contract: a sorted permutation). -/
def GetAllResourcesFromScene (scene : SceneM) : List Nat :=
  let fromRenderables := scene.renderables.foldl collectRenderable []
  let collected := scene.dataSlots.foldl pushBackIfValid fromRenderables
  uniqueAdj (List.insertionSort (fun a b => a ≤ b) collected)

/-- Specification-side description: the hashes a field makes the
collection loop read. -/
def fieldRefs : FieldEntry → List Nat
  | .bufferField h => [h]
  | .samplerField (some sm) => if sm.allocated then [sm.textureResource] else []
  | .samplerField none => []
  | .otherField => []

/-- Specification-side description of the hash occurrences
`GetAllResourcesFromScene` may report for one data instance. -/
def instanceRefs : Option DataLayoutM → List Nat
  | none => []
  | some layout => layout.effectHash :: layout.fields.flatMap fieldRefs

/-- Specification-side description: every hash referenced by a renderable
through its geometry or uniforms instance. -/
def renderableRefs (r : RenderableM) : List Nat :=
  instanceRefs r.geometryInstance ++ instanceRefs r.uniformsInstance

/-- Specification-side description: every hash referenced by a renderable
whose visibility mode is not `Off`, or attached to a data slot. -/
def sceneVisibleRefs (scene : SceneM) : List Nat :=
  (scene.renderables.filter (fun r => r.visibilityMode ≠ .Off)).flatMap renderableRefs
    ++ scene.dataSlots

/-! ## Theorems: resource value (claims C6, C7, C8, C9) -/

/-- Helper: a payload at least as long as the threshold is not "small". -/
theorem not_small_of_ge {x : List Nat} (h : compressionThreshold ≤ x.length) :
    ¬ x.length < compressionThreshold := by omega

/-- C6: for a resource value holding decompressed data large enough to be
compressed, compressing at `Offline` after `Realtime` replaces the
compressed buffer with the one `Offline` alone would produce, compressing
at `Realtime` after `Offline` is a no-op, and after the sequence
`Realtime, Offline, Realtime` the compressed buffer byte-equals the one
produced by `compress(Offline)` alone on the same data. -/
theorem c6_compression_level_monotonicity (t n : Nat) (md : List Nat) (x : List Nat)
    (hbig : compressionThreshold ≤ x.length) :
    ((((mkResource t md n).setResourceData x none).compress .Realtime).compress
        .Offline).compressedData
      = (((mkResource t md n).setResourceData x none).compress .Offline).compressedData
    ∧ ((((mkResource t md n).setResourceData x none).compress .Offline).compress .Realtime)
      = (((mkResource t md n).setResourceData x none).compress .Offline)
    ∧ (((((mkResource t md n).setResourceData x none).compress .Realtime).compress
          .Offline).compress .Realtime).compressedData
      = (((mkResource t md n).setResourceData x none).compress .Offline).compressedData := by
  have hnl := not_small_of_ge hbig
  refine ⟨?_, ?_, ?_⟩ <;>
    simp [mkResource, ResourceValue.setResourceData, ResourceValue.compress, hnl,
      CompressionLevel.rank]

/-- C6 witness at a concrete payload of 1001 bytes. -/
theorem c6_witness :
    compressionThreshold ≤ (List.replicate 1001 0).length
    ∧ ((((mkResource 0 [] 0).setResourceData (List.replicate 1001 0) none).compress
          .Realtime).compress .Offline).compressedData
      = (((mkResource 0 [] 0).setResourceData (List.replicate 1001 0) none).compress
          .Offline).compressedData :=
  ⟨by rw [List.length_replicate]; decide,
   (c6_compression_level_monotonicity 0 0 [] (List.replicate 1001 0)
     (by rw [List.length_replicate]; decide)).1⟩

/-- C7: for every payload and every compression level at least `Realtime`,
the shared decoder inverts the compressor of that level; and whenever
`compress(x, level)` actually produced a compressed buffer (the payload
reached the minimum-benefit size), a resource value constructed from that
buffer together with a declared decompressed size and hash decompresses to
a buffer byte-equal to the original payload, independent of the level that
produced the buffer (the reconstruction declares `Realtime`, as the tests
do, whatever the producing level was). -/
theorem c7_compression_roundtrip (t n t2 n2 size : Nat) (md md2 : List Nat) (hsh : ContentHash)
    (x : List Nat) (lvl : CompressionLevel) (hlvl : lvl ≠ .None) :
    decompressFn (compressFn lvl x) = x
    ∧ (compressionThreshold ≤ x.length →
        ∃ c, (((mkResource t md n).setResourceData x none).compress lvl).compressedData = some c
          ∧ (((mkResource t2 md2 n2).setCompressedResourceData c .Realtime size
                hsh).decompress).decompressedData = some x) := by
  have hround : decompressFn (compressFn lvl x) = x := by
    cases lvl with
    | None => exact absurd rfl hlvl
    | Realtime => simp [compressFn, decompressFn]
    | Offline => simp [compressFn, decompressFn]
  refine ⟨hround, fun hbig => ?_⟩
  have hnl := not_small_of_ge hbig
  refine ⟨compressFn lvl x, ?_, ?_⟩
  · cases lvl with
    | None => exact absurd rfl hlvl
    | Realtime =>
      simp [mkResource, ResourceValue.setResourceData, ResourceValue.compress, hnl]
    | Offline =>
      simp [mkResource, ResourceValue.setResourceData, ResourceValue.compress, hnl]
  · simp [mkResource, ResourceValue.setCompressedResourceData, ResourceValue.decompress, hround]

/-- C7 witness at a concrete payload of 1001 bytes, compressed at
`Offline` and reconstructed with declared level `Realtime`. -/
theorem c7_witness :
    CompressionLevel.Offline ≠ CompressionLevel.None
    ∧ compressionThreshold ≤ (List.replicate 1001 3).length
    ∧ ∃ c, (((mkResource 0 [] 0).setResourceData (List.replicate 1001 3) none).compress
          .Offline).compressedData = some c
        ∧ (((mkResource 1 [2] 3).setCompressedResourceData c .Realtime 1001
              ContentHash.invalid).decompress).decompressedData = some (List.replicate 1001 3) :=
  ⟨by decide, by rw [List.length_replicate]; decide,
    (c7_compression_roundtrip 0 0 1 3 1001 [] [2] ContentHash.invalid
        (List.replicate 1001 3) .Offline (by decide)).2
      (by rw [List.length_replicate]; decide)⟩

/-- C8: compressing a resource value whose decompressed payload is below
the minimum-benefit threshold succeeds but leaves the value not compressed,
whatever the requested level. -/
theorem c8_small_payload_skip (t n : Nat) (md : List Nat) (x : List Nat) (lvl : CompressionLevel)
    (hsmall : x.length < compressionThreshold) :
    (((mkResource t md n).setResourceData x none).compress lvl).isCompressedAvailable
      = false := by
  cases lvl <;>
    simp [mkResource, ResourceValue.setResourceData, ResourceValue.compress,
      ResourceValue.isCompressedAvailable, hsmall]

/-- C8 witness at a concrete 3-byte payload compressed at `Offline`. -/
theorem c8_witness :
    (List.length [1, 2, 3]) < compressionThreshold
    ∧ (((mkResource 0 [] 0).setResourceData [1, 2, 3] none).compress
        .Offline).isCompressedAvailable = false :=
  ⟨by decide, c8_small_payload_skip 0 0 [] [1, 2, 3] .Offline (by decide)⟩

/-- C9: the computed content hash of a resource value ignores the display
name (identical type, payload and metadata give equal hashes whatever the
names), while a change of payload or of serialized metadata changes the
hash. -/
theorem c9_hash_determinism (t n n1 n2 : Nat) (md md1 md2 : List Nat) (x x1 x2 : List Nat) :
    (((mkResource t md n1).setResourceData x none).getHash
      = ((mkResource t md n2).setResourceData x none).getHash)
    ∧ (x1 ≠ x2 →
        ((mkResource t md n).setResourceData x1 none).getHash
          ≠ ((mkResource t md n).setResourceData x2 none).getHash)
    ∧ (md1 ≠ md2 →
        ((mkResource t md1 n).setResourceData x none).getHash
          ≠ ((mkResource t md2 n).setResourceData x none).getHash) := by
  refine ⟨?_, fun hx => ?_, fun hmd => ?_⟩
  · simp [mkResource, ResourceValue.setResourceData, ResourceValue.getHash]
  · simp [mkResource, ResourceValue.setResourceData, ResourceValue.getHash, hx]
  · simp [mkResource, ResourceValue.setResourceData, ResourceValue.getHash, hmd]

/-- C9 witness at concrete resources: same content under names 1 and 2,
then payloads `[1]` vs `[2]`, then metadata `[1]` vs `[2]`. -/
theorem c9_witness :
    (((mkResource 0 [] 1).setResourceData [5] none).getHash
      = ((mkResource 0 [] 2).setResourceData [5] none).getHash)
    ∧ ((mkResource 0 [] 0).setResourceData [1] none).getHash
        ≠ ((mkResource 0 [] 0).setResourceData [2] none).getHash
    ∧ ((mkResource 0 [1] 0).setResourceData [5] none).getHash
        ≠ ((mkResource 0 [2] 0).setResourceData [5] none).getHash :=
  ⟨(c9_hash_determinism 0 0 1 2 [] [1] [2] [5] [1] [2]).1,
   (c9_hash_determinism 0 0 1 2 [] [1] [2] [5] [1] [2]).2.1 (by decide),
   (c9_hash_determinism 0 0 1 2 [1] [1] [2] [5] [1] [2]).2.2 (by decide)⟩

/-! ## Theorems: outgoing update path (claim C2) -/

/-- Helper: once the compression pass has run (`alreadyCompressed`), the
destination loop never compresses again and serializes the same shared
update to every further non-local destination. -/
theorem sendSceneUpdateLoop_compressed (myID : Nat) (toVec : List Nat) :
    ∀ (sts : Bool) (upd : SceneUpdateM) (passes : Nat) (sends : List (Nat × SceneUpdateM)),
    sendSceneUpdateLoop myID toVec sts true upd passes sends
      = (sts || toVec.any (fun d => d == myID), upd, passes,
         sends ++ (toVec.filter (fun d => d != myID)).map (fun d => (d, upd))) := by
  induction toVec with
  | nil => intro sts upd passes sends; simp [sendSceneUpdateLoop]
  | cons d rest ih =>
    intro sts upd passes sends
    by_cases h : d = myID
    · simp [sendSceneUpdateLoop, h, ih]
    · have hb : (d == myID) = false := by simp [h]
      simp [sendSceneUpdateLoop, h, ih, hb, Bool.or_assoc]

/-- Helper: full characterization of the destination loop started with the
compression pass not yet run: the local participant is remembered, the
compression pass runs exactly once when some destination is non-local (and
never otherwise), and every non-local destination is serialized the shared
once-compressed update. -/
theorem sendSceneUpdateLoop_spec (myID : Nat) (toVec : List Nat) :
    ∀ (sts : Bool) (upd : SceneUpdateM) (passes : Nat) (sends : List (Nat × SceneUpdateM)),
    sendSceneUpdateLoop myID toVec sts false upd passes sends
      = (sts || toVec.any (fun d => d == myID),
         (if toVec.any (fun d => d != myID) then compressPass upd else upd),
         passes + (if toVec.any (fun d => d != myID) then 1 else 0),
         sends ++ (toVec.filter (fun d => d != myID)).map (fun d => (d, compressPass upd))) := by
  induction toVec with
  | nil => intro sts upd passes sends; simp [sendSceneUpdateLoop]
  | cons d rest ih =>
    intro sts upd passes sends
    by_cases h : d = myID
    · simp [sendSceneUpdateLoop, h, ih]
    · have hb : (d == myID) = false := by simp [h]
      simp [sendSceneUpdateLoop, h, hb, sendSceneUpdateLoop_compressed, Bool.or_assoc]

/-- C2: in `sendSceneUpdate`, the `Realtime` compression pass over the
update's resources runs exactly once when the destination list contains at
least one non-local destination and not at all otherwise; every non-local
destination is serialized the same shared once-compressed update; and when
every destination is the local participant, nothing is serialized, nothing
is compressed, and the in-memory update is handed unchanged to the local
renderer handler (when one is attached). -/
theorem c2_send_update_compression (myID : Nat) (hasHandler : Bool) (toVec : List Nat)
    (upd : SceneUpdateM) :
    ((sendSceneUpdate myID hasHandler toVec upd).compressPasses
        = if ∃ d ∈ toVec, d ≠ myID then 1 else 0)
    ∧ (sendSceneUpdate myID hasHandler toVec upd).netSends
        = (toVec.filter (fun d => d != myID)).map (fun d => (d, compressPass upd))
    ∧ ((∀ d ∈ toVec, d = myID) →
        (sendSceneUpdate myID hasHandler toVec upd).compressPasses = 0
        ∧ (sendSceneUpdate myID hasHandler toVec upd).netSends = []
        ∧ (sendSceneUpdate myID hasHandler toVec upd).localDelivery
            = if hasHandler = true ∧ toVec ≠ [] then some upd else none) := by
  have hloop := sendSceneUpdateLoop_spec myID toVec false upd 0 []
  refine ⟨?_, ?_, fun hall => ⟨?_, ?_, ?_⟩⟩
  · simp [sendSceneUpdate, hloop, List.any_eq_true, bne_iff_ne]
  · simp [sendSceneUpdate, hloop]
  · have hnone : toVec.any (fun d => d != myID) = false := by
      simp [List.any_eq_false, bne_iff_ne]
      exact hall
    simp [sendSceneUpdate, hloop, hnone]
  · have hnone : toVec.filter (fun d => d != myID) = [] := by
      simp [List.filter_eq_nil_iff, bne_iff_ne]
      exact hall
    simp [sendSceneUpdate, hloop, hnone]
  · have hnone : toVec.any (fun d => d != myID) = false := by
      simp [List.any_eq_false, bne_iff_ne]
      exact hall
    cases toVec with
    | nil => simp [sendSceneUpdate, hloop]
    | cons d rest =>
      have hd : d = myID := hall d (List.mem_cons_self d rest)
      have hself : (d :: rest).any (fun x => x == myID) = true := by
        simp [hd]
      cases hasHandler with
      | false => simp [sendSceneUpdate, hloop, hnone, hself]
      | true => simp [sendSceneUpdate, hloop, hnone, hself]

/-- C2 witness: destinations `[11, 10, 12]` with local id 10 (mixed case)
and `[10]` (purely local case). -/
theorem c2_witness :
    ((sendSceneUpdate 10 true [11, 10, 12] ⟨1, [], 2⟩).compressPasses
        = if ∃ d ∈ [11, 10, 12], d ≠ 10 then 1 else 0)
    ∧ (∀ d ∈ [10], d = 10)
    ∧ (sendSceneUpdate 10 true [10] ⟨1, [], 2⟩).localDelivery
        = if (true = true) ∧ ([10] ≠ ([] : List Nat)) then some ⟨1, [], 2⟩ else none :=
  ⟨(c2_send_update_compression 10 true [11, 10, 12] ⟨1, [], 2⟩).1,
   by decide,
   ((c2_send_update_compression 10 true [10] ⟨1, [], 2⟩).2.2 (by decide)).2.2⟩

/-! ## Theorems: resource resolution (claim C5) -/

/-- Helper: looking up the key just inserted. -/
theorem alookup_ainsert_self {β : Type} (k : Nat) (v : β) (l : List (Nat × β)) :
    alookup k (ainsert k v l) = some v := by
  simp [ainsert, alookup]

/-- Helper: erasing a key leaves lookups of other keys unchanged. -/
theorem alookup_aerase_ne {β : Type} (k k1 : Nat) (l : List (Nat × β)) (hne : k1 ≠ k) :
    alookup k1 (aerase k l) = alookup k1 l := by
  induction l with
  | nil => simp [aerase, alookup]
  | cons p rest ih =>
    rcases p with ⟨pk, pv⟩
    by_cases hk : pk = k
    · have hpk1 : pk ≠ k1 := fun h => hne (h ▸ hk)
      simp [aerase, alookup, List.filter_cons, hk, Ne.symm hne, ih]
      simp [aerase] at ih
      exact ih
    · by_cases hk1 : pk = k1
      · simp [aerase, alookup, List.filter_cons, hk, hk1, hne]
      · simp [aerase, alookup, List.filter_cons, hk, hk1]
        simp [aerase] at ih
        exact ih

/-- Helper: inserting a binding leaves lookups of other keys unchanged. -/
theorem alookup_ainsert_ne {β : Type} (k k1 : Nat) (v : β) (l : List (Nat × β))
    (hne : k1 ≠ k) : alookup k1 (ainsert k v l) = alookup k1 l := by
  have hstep : alookup k1 (ainsert k v l) = alookup k1 (aerase k l) := by
    simp [ainsert, alookup, Ne.symm hne]
  rw [hstep]
  exact alookup_aerase_ne k k1 l hne

/-- Per-hash resolution against a given storage: the live resource if
cached, else the outcome of a file-backed load. -/
def resolveAt (fileEntries : List (Nat × Option Nat)) (storage : List (Nat × Nat))
    (h : Nat) : Option Nat :=
  match alookup h storage with
  | some r => some r
  | none => loadResource fileEntries h

/-- Helper: managing a just-loaded resource into the storage does not
change what any hash resolves to. -/
theorem resolveAt_ainsert (fileEntries : List (Nat × Option Nat))
    (storage : List (Nat × Nat)) (h r : Nat)
    (hmiss : alookup h storage = none) (hload : loadResource fileEntries h = some r) :
    ∀ h1, resolveAt fileEntries (ainsert h r storage) h1 = resolveAt fileEntries storage h1 := by
  intro h1
  by_cases he : h1 = h
  · subst he
    simp [resolveAt, alookup_ainsert_self, hmiss, hload]
  · simp [resolveAt, alookup_ainsert_ne h h1 r storage he]

/-- Helper: characterization of the `resolveResources` loop: the result
vector collects, in input order, what each hash resolves to, and the failed
list collects the hashes resolving to nothing; no failure stops the loop. -/
theorem resolveResourcesLoop_spec (fileEntries : List (Nat × Option Nat))
    (hashes : List Nat) :
    ∀ (storage : List (Nat × Nat)) (res failed : List Nat),
    (resolveResourcesLoop fileEntries hashes storage res failed).2.1
        = res ++ hashes.filterMap (resolveAt fileEntries storage)
    ∧ (resolveResourcesLoop fileEntries hashes storage res failed).2.2
        = failed ++ hashes.filter (fun h => (resolveAt fileEntries storage h).isNone) := by
  induction hashes with
  | nil => intro storage res failed; simp [resolveResourcesLoop]
  | cons h rest ih =>
    intro storage res failed
    cases hs : alookup h storage with
    | some r =>
      have hres : resolveAt fileEntries storage h = some r := by simp [resolveAt, hs]
      have hstep := ih storage (res ++ [r]) failed
      simp [resolveResourcesLoop, hs, hres, hstep]
    | none =>
      cases hl : loadResource fileEntries h with
      | some r =>
        have hres : resolveAt fileEntries storage h = some r := by simp [resolveAt, hs, hl]
        have hcong := resolveAt_ainsert fileEntries storage h r hs hl
        have hstep := ih (ainsert h r storage) (res ++ [r]) failed
        rw [List.filterMap_congr (fun a _ => hcong a)] at hstep
        rw [List.filter_congr (fun a _ => by rw [hcong a])] at hstep
        simp [resolveResourcesLoop, hs, hl, hres, hstep]
      | none =>
        have hres : resolveAt fileEntries storage h = none := by simp [resolveAt, hs, hl]
        have hstep := ih storage res (failed ++ [h])
        simp [resolveResourcesLoop, hs, hl, hres, hstep]

/-- Helper: every input is accounted for, either resolved or failed. -/
theorem filterMap_filter_isNone_length (f : Nat → Option Nat) (l : List Nat) :
    (l.filterMap f).length + (l.filter (fun h => (f h).isNone)).length = l.length := by
  induction l with
  | nil => simp
  | cons h rest ih =>
    cases hf : f h <;> simp [hf, List.filterMap_cons] <;> omega

/-- C5: `resolveResources` resolves each input hash to the cached live
resource if the storage holds one, otherwise to the outcome of a
file-backed load; the resolved resources are returned in input order, the
hashes resolvable by neither path are reported in the separately collected
failed-hash list, and no unresolvable hash aborts the batch: every input
hash is accounted for as either resolved or failed. -/
theorem c5_resolve_resources (env : ResolveEnv) (hashes : List Nat) :
    resolveResources env hashes
      = (hashes.filterMap (resolveOne env),
         hashes.filter (fun h => (resolveOne env h).isNone))
    ∧ (resolveResources env hashes).1.length + (resolveResources env hashes).2.length
        = hashes.length := by
  have hfn : resolveOne env = resolveAt env.fileEntries env.storage := rfl
  have hspec := resolveResourcesLoop_spec env.fileEntries hashes env.storage [] []
  have e1 : (resolveResources env hashes).1
      = hashes.filterMap (resolveAt env.fileEntries env.storage) := by
    simpa [resolveResources] using hspec.1
  have e2 : (resolveResources env hashes).2
      = hashes.filter (fun h => (resolveAt env.fileEntries env.storage h).isNone) := by
    simpa [resolveResources] using hspec.2
  rw [hfn]
  refine ⟨?_, ?_⟩
  · have : resolveResources env hashes
        = ((resolveResources env hashes).1, (resolveResources env hashes).2) := rfl
    rw [this, e1, e2]
  · rw [e1, e2]
    exact filterMap_filter_isNone_length _ hashes

/-! ## Theorems: inbound router paths (claims C1, C3, C4) -/

/-- Helper: looking up a key in the list it was erased from finds nothing. -/
theorem alookup_aerase_self {β : Type} (k : Nat) (l : List (Nat × β)) :
    alookup k (aerase k l) = none := by
  induction l with
  | nil => simp [aerase, alookup]
  | cons p rest ih =>
    by_cases hk : p.1 = k
    · simpa [aerase, List.filter_cons, hk] using ih
    · simp [aerase, List.filter_cons, hk, alookup]
      simpa [aerase] using ih

/-- Helper: a key still bound after an erasure was bound before it. -/
theorem alookup_aerase_some {β : Type} (j k : Nat) (l : List (Nat × β)) (v : β)
    (h : alookup k (aerase j l) = some v) : alookup k l = some v := by
  by_cases hk : k = j
  · subst hk
    rw [alookup_aerase_self] at h
    exact absurd h (by simp)
  · rwa [alookup_aerase_ne j k l hk] at h

/-- A remote-scene table with scene 1 tracked from provider 2 and an
initialized (fresh) decoder, as reached by a publish from provider 2
followed by scene initialization. -/
def c1State : RouterState :=
  { hasHandler := true, featureLevel := 1, connected := true,
    remoteScenes := [(1, ⟨⟨1, 0⟩, 2, some freshDeserializer⟩)] }

/-- C1, divergence witness: when the decoder reports `Failed` (here on a
chunk declaring record length 200001, beyond any sane bound and the
remaining bytes), the router emits no event at all — in particular no
`sceneBecameUnavailable`, so the scene is not marked unavailable to the
consumer — and the scene stays in the remote-scene table with its decoder
in the sticky failed state. Subsequent well-formed bytes on the stream are
not decoded into delivered updates (third conjunct), although the very same
bytes would have been delivered by a fresh decoder (fourth conjunct). The
spec instead requires the scene's replication to be torn down and the
subscriber notified; the TODO at SceneGraphComponent.cpp:559 records the
missing teardown. -/
theorem c1_failed_decode_not_torn_down :
    (handleSceneUpdate c1State 1 [1, 200001] 2).2 = []
    ∧ alookup 1 (handleSceneUpdate c1State 1 [1, 200001] 2).1.remoteScenes
        = some ⟨⟨1, 0⟩, 2, some ⟨true, []⟩⟩
    ∧ (handleSceneUpdate (handleSceneUpdate c1State 1 [1, 200001] 2).1 1 [1, 1, 42] 2).2 = []
    ∧ (handleSceneUpdate c1State 1 [1, 1, 42] 2).2
        = [.sceneUpdate 1 [(1, [42])] 2] := by
  decide

/-- A remote-scene table with scene 5 tracked from provider 2, its decoder
holding a buffered partial record byte. -/
def c3State : RouterState :=
  { hasHandler := true, featureLevel := 1, connected := true,
    remoteScenes := [(5, ⟨⟨5, 0⟩, 2, some ⟨false, [7]⟩⟩)] }

/-- C3, counterexample to the unamended claim: a republish of tracked scene
5 by the same provider 2 whose advertised feature level (2) differs from
the local level (1) does tear the old incarnation down (consumer notified,
entry removed) but does not accept the new publication: the scene is left
untracked and no availability notification is emitted. -/
theorem c3_counterexample :
    alookup 5 (handleNewScenesAvailable c3State [⟨5, 1⟩] 2 2).1.remoteScenes = none
    ∧ (handleNewScenesAvailable c3State [⟨5, 1⟩] 2 2).2
        = [.sceneBecameUnavailable 5 2] := by
  decide

/-- C3 (amended): when a publish notification whose advertised feature
level matches the local one arrives for a scene id already tracked from the
same provider, the router first notifies the consumer that the old
incarnation became unavailable and removes the tracked entry with its
decoder state, then accepts the new publication (tracked again, decoder
absent, availability notified after the unavailability); a fresh decoder —
not failed, holding no partial-record bytes of the old incarnation — is
installed on scene (re)initialization. -/
theorem c3_republish_is_unpublish_then_publish (s : RouterState) (rs : ReceivedScene)
    (newScene : SceneInfoM) (p fl : Nat)
    (hh : s.hasHandler = true)
    (htracked : alookup newScene.sceneID s.remoteScenes = some rs)
    (hprov : rs.provider = p)
    (hfl : fl = s.featureLevel) :
    (handleNewScenesAvailable s [newScene] p fl).2
        = [.sceneBecameUnavailable newScene.sceneID p, .newSceneAvailable newScene p]
    ∧ alookup newScene.sceneID (handleNewScenesAvailable s [newScene] p fl).1.remoteScenes
        = some ⟨newScene, p, none⟩
    ∧ alookup newScene.sceneID
        (handleInitializeScene (handleNewScenesAvailable s [newScene] p fl).1
          newScene.sceneID p).1.remoteScenes
        = some ⟨newScene, p, some freshDeserializer⟩
    ∧ freshDeserializer.failed = false ∧ freshDeserializer.pending = [] := by
  have hone : handleNewSceneAvailableOne s newScene p fl = ({ s with remoteScenes := ainsert newScene.sceneID ⟨newScene, p, none⟩ (aerase newScene.sceneID s.remoteScenes) }, [.sceneBecameUnavailable newScene.sceneID p, .newSceneAvailable newScene p]) := by
    unfold handleNewSceneAvailableOne
    simp [htracked, hprov, hh, alookup_aerase_self, hfl]
  have hcall : handleNewScenesAvailable s [newScene] p fl = ({ s with remoteScenes := ainsert newScene.sceneID ⟨newScene, p, none⟩ (aerase newScene.sceneID s.remoteScenes) }, [.sceneBecameUnavailable newScene.sceneID p, .newSceneAvailable newScene p]) := by
    simp [handleNewScenesAvailable, hone]
  refine ⟨by simp [hcall], by simp [hcall, alookup_ainsert_self], ?_, rfl, rfl⟩
  rw [hcall]
  unfold handleInitializeScene
  simp [hh, alookup_ainsert_self]

/-- C3 witness: republish of tracked scene 5 by provider 2 at the matching
feature level 1 tears down, then re-accepts. -/
theorem c3_witness :
    c3State.hasHandler = true
    ∧ (handleNewScenesAvailable c3State [⟨5, 9⟩] 2 1).2
        = [.sceneBecameUnavailable 5 2, .newSceneAvailable ⟨5, 9⟩ 2] :=
  ⟨by decide,
   (c3_republish_is_unpublish_then_publish c3State ⟨⟨5, 0⟩, 2, some ⟨false, [7]⟩⟩ ⟨5, 9⟩ 2 1
      (by decide) (by decide) (by decide) (by decide)).1⟩

/-- Helper: one publication processed under a mismatched feature level
never yields an availability notification and at most erases (never adds)
a table entry; all other router fields are untouched. -/
theorem handleNewSceneOne_mismatch (s : RouterState) (sc : SceneInfoM) (p fl : Nat)
    (hfl : fl ≠ s.featureLevel) :
    ((handleNewSceneAvailableOne s sc p fl).1 = s
      ∨ (handleNewSceneAvailableOne s sc p fl).1
          = { s with remoteScenes := aerase sc.sceneID s.remoteScenes })
    ∧ (∀ info q, REvent.newSceneAvailable info q ∉ (handleNewSceneAvailableOne s sc p fl).2) := by
  unfold handleNewSceneAvailableOne
  cases ht : alookup sc.sceneID s.remoteScenes with
  | none => simp [ht, hfl]
  | some rs =>
    by_cases hp : rs.provider = p
    · cases hh : s.hasHandler with
      | false => simp [ht, hp, hh, alookup_aerase_self, hfl]
      | true => simp [ht, hp, hh, alookup_aerase_self, hfl]
    · simp [ht, hp, hfl]

/-- Helper: the event accumulator of the publication fold only grows by
appending the events of the remaining publications. -/
theorem handleNewScenesAvailable_acc (newScenes : List SceneInfoM) (p fl : Nat) :
    ∀ (s : RouterState) (acc : List REvent),
    newScenes.foldl
        (fun a sc =>
          let step := handleNewSceneAvailableOne a.1 sc p fl
          (step.1, a.2 ++ step.2))
        (s, acc)
      = ((handleNewScenesAvailable s newScenes p fl).1,
         acc ++ (handleNewScenesAvailable s newScenes p fl).2) := by
  induction newScenes with
  | nil => intro s acc; simp [handleNewScenesAvailable]
  | cons sc rest ih =>
    intro s acc
    simp only [List.foldl_cons, handleNewScenesAvailable]
    rw [ih, ih]
    simp

/-- Helper: cons decomposition of `handleNewScenesAvailable`. -/
theorem handleNewScenesAvailable_cons (s : RouterState) (sc : SceneInfoM)
    (rest : List SceneInfoM) (p fl : Nat) :
    handleNewScenesAvailable s (sc :: rest) p fl
      = ((handleNewScenesAvailable (handleNewSceneAvailableOne s sc p fl).1 rest p fl).1,
         (handleNewSceneAvailableOne s sc p fl).2
           ++ (handleNewScenesAvailable (handleNewSceneAvailableOne s sc p fl).1 rest p fl).2) := by
  unfold handleNewScenesAvailable
  simp only [List.foldl_cons]
  rw [handleNewScenesAvailable_acc]
  simp [handleNewScenesAvailable]

/-- C4: a notification whose advertised feature level differs from the
local feature level adds nothing to the remote-scene table (every scene
still tracked afterwards was tracked before) and notifies the consumer of
no scene availability, whatever scenes it lists; the handler attachment,
connection flag and local feature level are unaffected. -/
theorem c4_feature_level_mismatch_rejected (s : RouterState) (newScenes : List SceneInfoM)
    (p fl : Nat) (hfl : fl ≠ s.featureLevel) :
    (∀ k v, alookup k (handleNewScenesAvailable s newScenes p fl).1.remoteScenes = some v →
        ∃ v0, alookup k s.remoteScenes = some v0)
    ∧ (∀ info q, REvent.newSceneAvailable info q ∉ (handleNewScenesAvailable s newScenes p fl).2)
    ∧ (handleNewScenesAvailable s newScenes p fl).1.connected = s.connected
    ∧ (handleNewScenesAvailable s newScenes p fl).1.hasHandler = s.hasHandler
    ∧ (handleNewScenesAvailable s newScenes p fl).1.featureLevel = s.featureLevel := by
  induction newScenes generalizing s with
  | nil =>
    refine ⟨fun k v hv => ⟨v, ?_⟩, ?_, ?_, ?_, ?_⟩ <;>
      simp_all [handleNewScenesAvailable]
  | cons sc rest ih =>
    rcases handleNewSceneOne_mismatch s sc p fl hfl with ⟨hstate, hevs⟩
    have hconn : (handleNewSceneAvailableOne s sc p fl).1.connected = s.connected := by
      rcases hstate with h | h <;> simp [h]
    have hhand : (handleNewSceneAvailableOne s sc p fl).1.hasHandler = s.hasHandler := by
      rcases hstate with h | h <;> simp [h]
    have hflev : (handleNewSceneAvailableOne s sc p fl).1.featureLevel = s.featureLevel := by
      rcases hstate with h | h <;> simp [h]
    have hlook : ∀ k v,
        alookup k (handleNewSceneAvailableOne s sc p fl).1.remoteScenes = some v →
        ∃ v0, alookup k s.remoteScenes = some v0 := by
      intro k v hv
      rcases hstate with h | h
      · exact ⟨v, h ▸ hv⟩
      · rw [h] at hv
        exact ⟨v, alookup_aerase_some sc.sceneID k s.remoteScenes v hv⟩
    have hfl1 : fl ≠ (handleNewSceneAvailableOne s sc p fl).1.featureLevel := by
      rw [hflev]; exact hfl
    have hrest := ih (handleNewSceneAvailableOne s sc p fl).1 hfl1
    rw [handleNewScenesAvailable_cons]
    refine ⟨fun k v hv => ?_, fun info q hmem => ?_, ?_, ?_, ?_⟩
    · rcases hrest.1 k v hv with ⟨v1, hv1⟩
      exact hlook k v1 hv1
    · rcases List.mem_append.mp hmem with hm | hm
      · exact hevs info q hm
      · exact hrest.2.1 info q hm
    · exact hrest.2.2.1.trans hconn
    · exact hrest.2.2.2.1.trans hhand
    · exact hrest.2.2.2.2.trans hflev

/-- A remote-scene table with scene 6 tracked from provider 2, local
feature level 1. -/
def c4State : RouterState :=
  { hasHandler := true, featureLevel := 1, connected := true,
    remoteScenes := [(6, ⟨⟨6, 0⟩, 2, none⟩)] }

/-- C4 witness: a publication of scenes 5 and 6 advertised at feature
level 2 against local level 1 yields no availability notification and
leaves the connection flag alone. -/
theorem c4_witness :
    (2 : Nat) ≠ c4State.featureLevel
    ∧ (∀ info q,
        REvent.newSceneAvailable info q ∉ (handleNewScenesAvailable c4State [⟨5, 0⟩, ⟨6, 1⟩] 3 2).2)
    ∧ (handleNewScenesAvailable c4State [⟨5, 0⟩, ⟨6, 1⟩] 3 2).1.connected = c4State.connected :=
  ⟨by decide,
   (c4_feature_level_mismatch_rejected c4State [⟨5, 0⟩, ⟨6, 1⟩] 3 2 (by decide)).2.1,
   (c4_feature_level_mismatch_rejected c4State [⟨5, 0⟩, ⟨6, 1⟩] 3 2 (by decide)).2.2.1⟩

/-! ## Theorems: scene resource collection (claim C10) -/

/-- Helper: `pushBackIfValid` only adds the given hash, and only when it is
valid. -/
theorem mem_pushBackIfValid_sub {vec : List Nat} {h x : Nat}
    (hx : x ∈ pushBackIfValid vec h) : x ∈ vec ∨ (x = h ∧ h ≠ 0) := by
  by_cases h0 : h = 0
  · simp [pushBackIfValid, h0] at hx
    exact Or.inl hx
  · simp [pushBackIfValid, h0] at hx
    rcases hx with h1 | h1
    · exact Or.inl h1
    · exact Or.inr ⟨h1, h0⟩

/-- Helper: folding `pushBackIfValid` over a hash list only adds valid
hashes of that list. -/
theorem mem_foldl_pushBackIfValid_sub (slots : List Nat) :
    ∀ (vec : List Nat) (x : Nat), x ∈ slots.foldl pushBackIfValid vec →
      x ∈ vec ∨ (x ∈ slots ∧ x ≠ 0) := by
  induction slots with
  | nil => intro vec x hx; exact Or.inl hx
  | cons h rest ih =>
    intro vec x hx
    simp only [List.foldl_cons] at hx
    rcases ih _ x hx with h1 | h1
    · rcases mem_pushBackIfValid_sub h1 with h2 | h2
      · exact Or.inl h2
      · exact Or.inr ⟨by simp [h2.1], by rw [h2.1]; exact h2.2⟩
    · exact Or.inr ⟨List.mem_cons_of_mem h h1.1, h1.2⟩

/-- Helper: the field loop only adds valid hashes the field references. -/
theorem mem_collectField_sub {vec : List Nat} {f : FieldEntry} {x : Nat}
    (hx : x ∈ collectField vec f) : x ∈ vec ∨ (x ∈ fieldRefs f ∧ x ≠ 0) := by
  cases f with
  | bufferField h =>
    simp only [collectField] at hx
    rcases mem_pushBackIfValid_sub hx with h1 | h1
    · exact Or.inl h1
    · exact Or.inr ⟨by simp [fieldRefs, h1.1], by rw [h1.1]; exact h1.2⟩
  | samplerField s =>
    cases s with
    | none => exact Or.inl hx
    | some sm =>
      by_cases ha : sm.allocated
      · simp only [collectField, ha, if_true] at hx
        rcases mem_pushBackIfValid_sub hx with h1 | h1
        · exact Or.inl h1
        · exact Or.inr ⟨by simp [fieldRefs, ha, h1.1], by rw [h1.1]; exact h1.2⟩
      · simp only [collectField, ha, if_false] at hx
        exact Or.inl hx
  | otherField => exact Or.inl hx

/-- Helper: the fold of the field loop only adds valid referenced hashes. -/
theorem mem_foldl_collectField_sub (fields : List FieldEntry) :
    ∀ (vec : List Nat) (x : Nat), x ∈ fields.foldl collectField vec →
      x ∈ vec ∨ (x ∈ fields.flatMap fieldRefs ∧ x ≠ 0) := by
  induction fields with
  | nil => intro vec x hx; exact Or.inl hx
  | cons f rest ih =>
    intro vec x hx
    simp only [List.foldl_cons] at hx
    rcases ih _ x hx with h1 | h1
    · rcases mem_collectField_sub h1 with h2 | h2
      · exact Or.inl h2
      · refine Or.inr ⟨?_, h2.2⟩
        rw [List.flatMap_cons]
        exact List.mem_append.mpr (Or.inl h2.1)
    · refine Or.inr ⟨?_, h1.2⟩
      rw [List.flatMap_cons]
      exact List.mem_append.mpr (Or.inr h1.1)

/-- Helper: per-instance collection only adds valid referenced hashes. -/
theorem mem_collectInstance_sub {vec : List Nat} {oi : Option DataLayoutM} {x : Nat}
    (hx : x ∈ collectInstance vec oi) : x ∈ vec ∨ (x ∈ instanceRefs oi ∧ x ≠ 0) := by
  cases oi with
  | none => exact Or.inl hx
  | some layout =>
    simp only [collectInstance] at hx
    rcases mem_foldl_collectField_sub layout.fields _ x hx with h1 | h1
    · rcases mem_pushBackIfValid_sub h1 with h2 | h2
      · exact Or.inl h2
      · exact Or.inr ⟨by simp [instanceRefs, h2.1], by rw [h2.1]; exact h2.2⟩
    · exact Or.inr ⟨by simp [instanceRefs, h1.1], h1.2⟩

/-- Helper: per-renderable collection adds nothing for an `Off` renderable
and otherwise only valid hashes the renderable references. -/
theorem mem_collectRenderable_sub {vec : List Nat} {r : RenderableM} {x : Nat}
    (hx : x ∈ collectRenderable vec r) :
    x ∈ vec ∨ (r.visibilityMode ≠ .Off ∧ x ∈ renderableRefs r ∧ x ≠ 0) := by
  by_cases hv : r.visibilityMode = .Off
  · simp [collectRenderable, hv] at hx
    exact Or.inl hx
  · simp only [collectRenderable, if_neg hv] at hx
    rcases mem_collectInstance_sub hx with h1 | h1
    · rcases mem_collectInstance_sub h1 with h2 | h2
      · exact Or.inl h2
      · exact Or.inr ⟨hv, by simp [renderableRefs, h2.1], h2.2⟩
    · exact Or.inr ⟨hv, by simp [renderableRefs, h1.1], h1.2⟩

/-- Helper: the renderable fold only adds valid hashes referenced through
non-`Off` renderables. -/
theorem mem_foldl_collectRenderable_sub (rs : List RenderableM) :
    ∀ (vec : List Nat) (x : Nat), x ∈ rs.foldl collectRenderable vec →
      x ∈ vec
      ∨ (x ∈ (rs.filter (fun r => r.visibilityMode ≠ .Off)).flatMap renderableRefs ∧ x ≠ 0) := by
  induction rs with
  | nil => intro vec x hx; exact Or.inl hx
  | cons r rest ih =>
    intro vec x hx
    simp only [List.foldl_cons] at hx
    rcases ih _ x hx with h1 | h1
    · rcases mem_collectRenderable_sub h1 with h2 | h2
      · exact Or.inl h2
      · refine Or.inr ⟨?_, h2.2.2⟩
        rw [List.filter_cons, if_pos (by simpa using h2.1), List.flatMap_cons]
        exact List.mem_append.mpr (Or.inl h2.2.1)
    · refine Or.inr ⟨?_, h1.2⟩
      by_cases hoff : r.visibilityMode = .Off
      · rw [List.filter_cons, if_neg (by simpa using hoff)]
        exact h1.1
      · rw [List.filter_cons, if_pos (by simpa using hoff), List.flatMap_cons]
        exact List.mem_append.mpr (Or.inr h1.1)

/-- Helper: everything `uniqueAdjAux` keeps was in its input. -/
theorem mem_uniqueAdjAux (l : List Nat) :
    ∀ (last x : Nat), x ∈ uniqueAdjAux last l → x ∈ l := by
  induction l with
  | nil => intro last x hx; simp [uniqueAdjAux] at hx
  | cons b rest ih =>
    intro last x hx
    by_cases hb : b = last
    · simp only [uniqueAdjAux, if_pos hb] at hx
      exact List.mem_cons_of_mem b (ih last x hx)
    · simp only [uniqueAdjAux, if_neg hb] at hx
      rcases List.mem_cons.mp hx with h | h
      · simp [h]
      · exact List.mem_cons_of_mem b (ih b x h)

/-- Helper: on a sorted tail whose elements dominate `last`,
`uniqueAdjAux` yields a strictly sorted list strictly above `last`. -/
theorem uniqueAdjAux_sorted_gt (l : List Nat) :
    ∀ last : Nat, (∀ y ∈ l, last ≤ y) → l.Sorted (· ≤ ·) →
      (∀ y ∈ uniqueAdjAux last l, last < y) ∧ (uniqueAdjAux last l).Sorted (· < ·) := by
  induction l with
  | nil => intro last _ _; simp [uniqueAdjAux]
  | cons b rest ih =>
    intro last hle hs
    have hsr : rest.Sorted (· ≤ ·) := (List.sorted_cons.mp hs).2
    have hbr : ∀ y ∈ rest, b ≤ y := (List.sorted_cons.mp hs).1
    by_cases hb : b = last
    · have h1 : ∀ y ∈ rest, last ≤ y := fun y hy => hb ▸ hbr y hy
      simpa only [uniqueAdjAux, if_pos hb] using ih last h1 hsr
    · have hlb : last < b := lt_of_le_of_ne (hle b (by simp)) (fun h => hb h.symm)
      have ihb := ih b hbr hsr
      constructor
      · intro y hy
        simp only [uniqueAdjAux, if_neg hb] at hy
        rcases List.mem_cons.mp hy with h | h
        · rw [h]; exact hlb
        · exact lt_trans hlb (ihb.1 y h)
      · simp only [uniqueAdjAux, if_neg hb, List.sorted_cons]
        exact ⟨ihb.1, ihb.2⟩

/-- Helper: on a sorted list, `uniqueAdj` yields a strictly sorted
sublist of the same elements. -/
theorem uniqueAdj_props (l : List Nat) (hs : l.Sorted (· ≤ ·)) :
    (uniqueAdj l).Sorted (· < ·) ∧ ∀ x ∈ uniqueAdj l, x ∈ l := by
  cases l with
  | nil => simp [uniqueAdj]
  | cons a rest =>
    have hsr := (List.sorted_cons.mp hs).2
    have har := (List.sorted_cons.mp hs).1
    have haux := uniqueAdjAux_sorted_gt rest a har hsr
    constructor
    · simp only [uniqueAdj, List.sorted_cons]
      exact ⟨haux.1, haux.2⟩
    · intro x hx
      simp only [uniqueAdj, List.mem_cons] at hx
      rcases hx with h | h
      · simp [h]
      · exact List.mem_cons_of_mem a (mem_uniqueAdjAux rest a x h)

/-- C10: the resource list collected from a scene is strictly sorted,
duplicate-free, contains no invalid hash, and contains only hashes
referenced by a renderable whose visibility mode is not `Off` or attached
to a data slot — in particular no hash referenced only by `Off`
renderables. -/
theorem c10_scene_resources (scene : SceneM) :
    (GetAllResourcesFromScene scene).Sorted (· < ·)
    ∧ (GetAllResourcesFromScene scene).Nodup
    ∧ (∀ h ∈ GetAllResourcesFromScene scene, h ≠ 0)
    ∧ (∀ h ∈ GetAllResourcesFromScene scene, h ∈ sceneVisibleRefs scene) := by
  have hget : GetAllResourcesFromScene scene
      = uniqueAdj (List.insertionSort (fun a b => a ≤ b)
          (scene.dataSlots.foldl pushBackIfValid
            (scene.renderables.foldl collectRenderable []))) := rfl
  have hsorted := List.sorted_insertionSort (fun a b => a ≤ b)
    (scene.dataSlots.foldl pushBackIfValid (scene.renderables.foldl collectRenderable []))
  have hu := uniqueAdj_props _ hsorted
  have hmem : ∀ x ∈ GetAllResourcesFromScene scene,
      x ∈ scene.dataSlots.foldl pushBackIfValid
        (scene.renderables.foldl collectRenderable []) := by
    intro x hx
    rw [hget] at hx
    have := hu.2 x hx
    exact (List.mem_insertionSort (fun a b => a ≤ b)).mp this
  have hchar : ∀ x ∈ GetAllResourcesFromScene scene, x ≠ 0 ∧ x ∈ sceneVisibleRefs scene := by
    intro x hx
    have hx1 := hmem x hx
    rcases mem_foldl_pushBackIfValid_sub scene.dataSlots _ x hx1 with h1 | h1
    · rcases mem_foldl_collectRenderable_sub scene.renderables _ x h1 with h2 | h2
      · exact absurd h2 (by simp)
      · exact ⟨h2.2, List.mem_append.mpr (Or.inl h2.1)⟩
    · exact ⟨h1.2, List.mem_append.mpr (Or.inr h1.1)⟩
  refine ⟨?_, ?_, fun h hh => (hchar h hh).1, fun h hh => (hchar h hh).2⟩
  · rw [hget]; exact hu.1
  · rw [hget]; exact hu.1.nodup

/-- A concrete scene: one visible renderable referencing effect 9, buffer
resource 7, an allocated sampler with texture 3 and an invalid buffer hash;
one `Off` renderable referencing effect 4; data slots 2, invalid, 9. -/
def c10Scene : SceneM :=
  { renderables :=
      [⟨.Visible, some ⟨9, [.bufferField 7, .samplerField (some ⟨true, 3⟩), .bufferField 0]⟩, none⟩,
       ⟨.Off, some ⟨4, []⟩, none⟩],
    dataSlots := [2, 0, 9] }

/-- C10 witness: for the concrete scene, hash 7 is reported, is valid, and
is referenced by a visible renderable; the `Off`-only hash 4 and the
invalid hash 0 are not reported. -/
theorem c10_witness :
    7 ∈ GetAllResourcesFromScene c10Scene
    ∧ 7 ≠ 0
    ∧ 7 ∈ sceneVisibleRefs c10Scene
    ∧ 4 ∉ GetAllResourcesFromScene c10Scene
    ∧ 0 ∉ GetAllResourcesFromScene c10Scene :=
  ⟨by decide,
   (c10_scene_resources c10Scene).2.2.1 7 (by decide),
   (c10_scene_resources c10Scene).2.2.2 7 (by decide),
   by decide, by decide⟩
